import Mathlib

/-
  Verification development for the Object-Identification-system repository
  (src/utils.py and src/app.py).

  The Python module utils.py is embedded shallowly:
  - the module-level statistics dictionary and its accessors
    (_latest_stats, _update_latest_stats, _set_alert, get_latest_stats)
    are modelled over a Python-style value type Val with string-keyed
    association lists standing for dicts;
  - the generator generate_frames is modelled as a step function on an
    explicit loop state, iterated over a list of per-frame oracle inputs
    (the detections the model would return, the measured inference time,
    and the wall-clock time observed on that frame);
  - generator consumption (next calls / close) is modelled by genRun,
    which takes a budget of next() calls: closing the generator raises
    GeneratorExit at the yield, so the code after the while loop, namely
    cap.release(), only runs when the consumer requests one more frame
    than the source yields;
  - a second, address-based model (StatsHeap) makes the copy semantics of
    dict(...) visible, for the deep-copy isolation property of
    get_latest_stats.
  Floating point times and rates are modelled as rationals; 1e-6 is the
  rational 1/1000000, 0.9 and 0.1 are 9/10 and 1/10.
-/

namespace ObjId

/-! ## Python-style values and dicts (utils.py module state) -/

inductive Val : Type where
  | num (q : ℚ)
  | str (s : String)
  | vdict (entries : List (String × Val))
deriving Inhabited

abbrev PyDict := List (String × Val)

/-- Python d[k] = v : replaces the value of an existing key in place
(keeping its position), appends a new binding otherwise. -/
def dictSet : PyDict → String → Val → PyDict
  | [], k, v => [(k, v)]
  | (k', v') :: rest, k, v =>
      if k' = k then (k', v) :: rest else (k', v') :: dictSet rest k v

/-- Python d.get(k, dflt). -/
def dictGetD (d : PyDict) (k : String) (dflt : Val) : Val :=
  match d.find? (fun p => p.1 = k) with
  | some p => p.2
  | none => dflt

/-- The value bound to a key, if any. -/
def dictFind (d : PyDict) (k : String) : Option Val :=
  (d.find? (fun p => p.1 = k)).map (fun p => p.2)

/-- Python dict(x): succeeds (as a copy) when x is a dict, raises otherwise. -/
def pyDictCopy : Val → Option Val
  | .vdict l => some (.vdict l)
  | _ => none

/-- Python truthiness of the alert_message argument (None or "" are falsy). -/
def truthyStr : Option String → Bool
  | some m => m ≠ ""
  | none => false

/-- utils.py line 24: the initial module-level _latest_stats dictionary. -/
def _latest_stats : PyDict :=
  [("fps", .num 0),
   ("counts", .vdict []),
   ("last_update_ts", .num 0),
   ("alert", .vdict [("message", .str ""), ("ts", .num 0)])]

/-- utils.py _update_latest_stats: set fps, counts (a dict(...) copy),
last_update_ts := time.time(); replace alert only when alert_message is
truthy.  The two time.time() calls are oracles t1 (for last_update_ts)
and t2 (for the alert timestamp). -/
def _update_latest_stats (d : PyDict) (fps : ℚ) (counts : List (String × Val))
    (alert_message : Option String) (t1 t2 : ℚ) : PyDict :=
  let d1 := dictSet d "fps" (.num fps)
  let d2 := dictSet d1 "counts" (.vdict counts)
  let d3 := dictSet d2 "last_update_ts" (.num t1)
  match alert_message with
  | some m =>
      if m = "" then d3
      else dictSet d3 "alert" (.vdict [("message", .str m), ("ts", .num t2)])
  | none => d3

/-- utils.py _set_alert. -/
def _set_alert (d : PyDict) (message : String) (t : ℚ) : PyDict :=
  dictSet d "alert" (.vdict [("message", .str message), ("ts", .num t)])

/-- utils.py get_latest_stats: builds a fresh four-key dict from the shared
state using .get with defaults; dict(...) conversions of the counts and
alert values can raise on ill-typed states, hence the Option result. -/
def get_latest_stats (d : PyDict) : Option Val :=
  match pyDictCopy (dictGetD d "counts" (.vdict [])),
        pyDictCopy (dictGetD d "alert"
          (.vdict [("message", .str ""), ("ts", .num 0)])) with
  | some c, some a =>
      some (.vdict
        [("fps", dictGetD d "fps" (.num 0)),
         ("counts", c),
         ("last_update_ts", dictGetD d "last_update_ts" (.num 0)),
         ("alert", a)])
  | _, _ => none

/-! ## Config and detection data (utils.py) -/

/-- utils.py lines 12-16. -/
def allowed_classes : List String :=
  ["person", "car", "dog", "cat", "bicycle", "motorcycle", "bus",
   "truck", "traffic light", "fire hydrant", "stop sign",
   "parking meter", "bird", "horse", "sheep", "cow"]

/-- One box of a YOLO result: class id, xyxy coordinates, confidence.
The nested results/boxes iteration of utils.py is modelled flattened. -/
structure Detection : Type where
  cls : Nat
  bbox : Int × Int × Int × Int
  conf : ℚ
deriving Inhabited, DecidableEq

/-- utils.py is_allowed_class: model.names[cls_id] in allowed_classes.
The model's id-to-name table is the function names. -/
def is_allowed_class (names : Nat → String) (cls_id : Nat) : Bool :=
  decide (names cls_id ∈ allowed_classes)

/-- Python counts[k] = counts.get(k, 0) + 1 on a str-to-int dict:
in-place increment of an existing key, append of a new one. -/
def bump (counts : List (String × Nat)) (k : String) : List (String × Nat) :=
  if counts.any (fun p => p.1 = k) then
    counts.map (fun p => if p.1 = k then (p.1, p.2 + 1) else p)
  else counts ++ [(k, 1)]

/-- utils.py lines 140-147: count allowed objects, in detection order. -/
def buildCounts (names : Nat → String) :
    List Detection → List (String × Nat) → List (String × Nat)
  | [], counts => counts
  | det :: rest, counts =>
      if is_allowed_class names det.cls then
        buildCounts names rest (bump counts (names det.cls))
      else
        buildCounts names rest counts

/-- Python max(items, key=lambda x: x[1]) keeps the current maximum on a
tie, so it returns the first item attaining the maximum value. -/
def pluralityMax (best : String × Nat) : List (String × Nat) → String × Nat
  | [] => best
  | q :: rest => pluralityMax (if q.2 > best.2 then q else best) rest

/-! ## The frame-processing loop (generate_frames) -/

/-- Per-frame oracle input: what model(frame) would return on this frame,
the measured inference wall-clock time, and the time.time() value observed
while handling this frame. -/
structure FrameIn : Type where
  dets : List Detection
  infer_dt : ℚ
  now : ℚ
deriving Inhabited

/-- Observable effect of handling one frame: whether the model was
invoked, the alert emitted (if any), and the detection set used by the
overlay (none when draw_boxes is skipped because last_results is None).
Every handled frame also yields exactly one encoded chunk. -/
structure FrameOut : Type where
  ranDetection : Bool
  alertEmitted : Option String
  overlayUsed : Option (List Detection)
deriving Inhabited, DecidableEq

/-- The loop-local state of generate_frames, plus the module store it
writes through _update_latest_stats. -/
structure GenState : Type where
  frame_count : Nat
  last_results : Option (List Detection)
  smoothed_fps : ℚ
  last_alert_time : ℚ
  store : PyDict

/-- Loop state at generator start (utils.py lines 111-116) over a given
initial module store. -/
def initState (store0 : PyDict) : GenState :=
  { frame_count := 0, last_results := none, smoothed_fps := 0,
    last_alert_time := 0, store := store0 }

/-- utils.py line 133: instant_fps = 1.0 / max(infer_dt, 1e-6). -/
def instantOf (dt : ℚ) : ℚ := 1 / max dt (1 / 1000000)

/-- utils.py lines 134-136: seed the smoothed FPS with the instant value
when it is still zero, otherwise apply the exponential moving average. -/
def smoothNext (s inst : ℚ) : ℚ :=
  if s = 0 then inst else (9 / 10) * s + (1 / 10) * inst

/-- utils.py lines 149-165: from the counts dict, the last alert time and
the current time, decide the alert message (None outside the cooldown or
for empty counts) and the new last alert time. -/
def alertDecision (counts : List (String × Nat)) (lastT nowT : ℚ) :
    Option String × ℚ :=
  match counts with
  | [] => (none, lastT)
  | c :: cs =>
      let detected_class := (pluralityMax c cs).1
      let count := ((c :: cs).lookup detected_class).getD 0
      if nowT - lastT > 3 then
        (some (toString count ++ " " ++ detected_class ++ " detected"), nowT)
      else (none, lastT)

/-- One iteration of the while-loop body of generate_frames, from the
successful cap.read() up to the yield (utils.py lines 124-182). -/
def stepFrame (names : Nat → String) (st : GenState) (fi : FrameIn) :
    GenState × FrameOut :=
  let n := st.frame_count + 1
  if n % 6 = 0 then
    let smoothed_fps := smoothNext st.smoothed_fps (instantOf fi.infer_dt)
    let counts := buildCounts names fi.dets []
    let ad := alertDecision counts st.last_alert_time fi.now
    let store' := _update_latest_stats st.store smoothed_fps
      (counts.map (fun p => (p.1, Val.num (p.2 : ℚ)))) ad.1 fi.now fi.now
    ({ frame_count := n, last_results := some fi.dets,
       smoothed_fps := smoothed_fps, last_alert_time := ad.2,
       store := store' },
     { ranDetection := true, alertEmitted := ad.1,
       overlayUsed := some fi.dets })
  else
    ({ st with frame_count := n },
     { ranDetection := false, alertEmitted := none,
       overlayUsed := st.last_results })

/-- The loop run to source exhaustion: processes every frame the source
yields, returning the final state and one FrameOut per frame. -/
def runFrames (names : Nat → String) (st : GenState) :
    List FrameIn → GenState × List FrameOut
  | [] => (st, [])
  | fi :: rest =>
      let p := stepFrame names st fi
      let q := runFrames names p.1 rest
      (q.1, p.2 :: q.2)

/-- Generator consumption semantics: frames is what the source can still
yield, budget the number of next() calls the consumer will make before
closing the generator.  Each next() runs the body to the yield and
produces one chunk.  When the budget is exhausted the generator is closed:
GeneratorExit is raised at the suspended yield and, with no try/finally,
the code after the loop (cap.release on line 184) is skipped.  When the
source is exhausted first, cap.read() fails, the loop breaks and the
release runs.  The result is (chunks produced, number of release calls). -/
def genRun (names : Nat → String) (st : GenState) :
    List FrameIn → Nat → List FrameOut × Nat
  | _, 0 => ([], 0)
  | [], _ + 1 => ([], 1)
  | fi :: rest, budget + 1 =>
      let p := stepFrame names st fi
      let q := genRun names p.1 rest budget
      (p.2 :: q.1, q.2)

/-! ## Dictionary lemmas -/

theorem dictFind_dictSet_self (d : PyDict) (k : String) (v : Val) :
    dictFind (dictSet d k v) k = some v := by
  induction d with
  | nil => simp [dictSet, dictFind, List.find?]
  | cons p rest ih =>
      by_cases h : p.1 = k
      · simp [dictSet, dictFind, List.find?, h]
      · simpa [dictSet, dictFind, List.find?, h] using ih

theorem dictFind_dictSet_ne (d : PyDict) (k k' : String) (v : Val)
    (h : k' ≠ k) : dictFind (dictSet d k v) k' = dictFind d k' := by
  induction d with
  | nil => simp [dictSet, dictFind, List.find?, Ne.symm h]
  | cons p rest ih =>
      by_cases hp : p.1 = k
      · subst hp
        simp [dictSet, dictFind, List.find?, Ne.symm h]
      · by_cases hp' : p.1 = k'
        · simp [dictSet, dictFind, List.find?, hp, hp', h]
        · simpa [dictSet, dictFind, List.find?, hp, hp'] using ih

/-! ## C6: the update contract of the statistics store -/

/-- The fps/counts/last_update_ts writes of _update_latest_stats, before
the optional alert write. -/
def updBase (d : PyDict) (fps : ℚ) (counts : List (String × Val)) (t1 : ℚ) :
    PyDict :=
  dictSet (dictSet (dictSet d "fps" (Val.num fps)) "counts" (Val.vdict counts))
    "last_update_ts" (Val.num t1)

theorem updBase_find_fps (d : PyDict) (fps : ℚ) (counts : List (String × Val))
    (t1 : ℚ) : dictFind (updBase d fps counts t1) "fps" = some (.num fps) := by
  unfold updBase
  rw [dictFind_dictSet_ne _ _ _ _ (by decide),
      dictFind_dictSet_ne _ _ _ _ (by decide), dictFind_dictSet_self]

theorem updBase_find_counts (d : PyDict) (fps : ℚ) (counts : List (String × Val))
    (t1 : ℚ) :
    dictFind (updBase d fps counts t1) "counts" = some (.vdict counts) := by
  unfold updBase
  rw [dictFind_dictSet_ne _ _ _ _ (by decide), dictFind_dictSet_self]

theorem updBase_find_ts (d : PyDict) (fps : ℚ) (counts : List (String × Val))
    (t1 : ℚ) :
    dictFind (updBase d fps counts t1) "last_update_ts" = some (.num t1) := by
  unfold updBase
  rw [dictFind_dictSet_self]

theorem updBase_find_alert (d : PyDict) (fps : ℚ) (counts : List (String × Val))
    (t1 : ℚ) :
    dictFind (updBase d fps counts t1) "alert" = dictFind d "alert" := by
  unfold updBase
  rw [dictFind_dictSet_ne _ _ _ _ (by decide),
      dictFind_dictSet_ne _ _ _ _ (by decide),
      dictFind_dictSet_ne _ _ _ _ (by decide)]

theorem update_eq_updBase (d : PyDict) (fps : ℚ) (counts : List (String × Val))
    (am : Option String) (t1 t2 : ℚ) :
    _update_latest_stats d fps counts am t1 t2 =
      (if truthyStr am then
        dictSet (updBase d fps counts t1) "alert"
          (.vdict [("message", .str (am.getD "")), ("ts", .num t2)])
       else updBase d fps counts t1) := by
  cases am with
  | none => simp [_update_latest_stats, truthyStr, updBase]
  | some m =>
      by_cases hm : m = ""
      · subst hm
        simp [_update_latest_stats, truthyStr, updBase]
      · simp [_update_latest_stats, truthyStr, hm, updBase]

/-- C6: _update_latest_stats replaces fps, counts (with a copy of the
supplied mapping), sets last_update_ts to the current time, and replaces
the alert binding with the given message stamped with the current time
iff alert_message is non-empty (neither None nor ""); when alert_message
is None or "" the alert binding is exactly unchanged. -/
theorem c6_update_contract (d : PyDict) (fps : ℚ) (counts : List (String × Val))
    (am : Option String) (t1 t2 : ℚ) :
    dictFind (_update_latest_stats d fps counts am t1 t2) "fps" =
      some (.num fps) ∧
    dictFind (_update_latest_stats d fps counts am t1 t2) "counts" =
      some (.vdict counts) ∧
    dictFind (_update_latest_stats d fps counts am t1 t2) "last_update_ts" =
      some (.num t1) ∧
    dictFind (_update_latest_stats d fps counts am t1 t2) "alert" =
      (if truthyStr am then
        some (.vdict [("message", .str (am.getD "")), ("ts", .num t2)])
       else dictFind d "alert") := by
  rw [update_eq_updBase]
  cases ht : truthyStr am with
  | false =>
      simp only [Bool.false_eq_true, if_false]
      exact ⟨updBase_find_fps d fps counts t1, updBase_find_counts d fps counts t1,
        updBase_find_ts d fps counts t1, updBase_find_alert d fps counts t1⟩
  | true =>
      simp only [if_true]
      refine ⟨?_, ?_, ?_, ?_⟩
      · rw [dictFind_dictSet_ne _ _ _ _ (by decide), updBase_find_fps]
      · rw [dictFind_dictSet_ne _ _ _ _ (by decide), updBase_find_counts]
      · rw [dictFind_dictSet_ne _ _ _ _ (by decide), updBase_find_ts]
      · rw [dictFind_dictSet_self]

/-! ## C10: shape and totality of get_latest_stats on reachable states -/

/-- Store states reachable through the module's own write operations,
starting from the initial zero-valued snapshot. -/
inductive ReachableStore : PyDict → Prop where
  | init : ReachableStore _latest_stats
  | update (d : PyDict) (fps : ℚ) (counts : List (String × Val))
      (am : Option String) (t1 t2 : ℚ) :
      ReachableStore d → ReachableStore (_update_latest_stats d fps counts am t1 t2)
  | set_alert (d : PyDict) (m : String) (t : ℚ) :
      ReachableStore d → ReachableStore (_set_alert d m t)

/-- The concrete shape every reachable store state has: the four keys in
their initial insertion order, with well-typed values. -/
def StoreShaped (d : PyDict) : Prop :=
  ∃ f cl t m ts,
    d = [("fps", Val.num f), ("counts", Val.vdict cl),
         ("last_update_ts", Val.num t),
         ("alert", Val.vdict [("message", Val.str m), ("ts", Val.num ts)])]

theorem shaped_update (d : PyDict) (fps : ℚ) (counts : List (String × Val))
    (am : Option String) (t1 t2 : ℚ) (h : StoreShaped d) :
    StoreShaped (_update_latest_stats d fps counts am t1 t2) := by
  obtain ⟨f, cl, t, m, ts, rfl⟩ := h
  unfold _update_latest_stats
  cases am with
  | none => exact ⟨fps, counts, t1, m, ts, by simp [dictSet]⟩
  | some msg =>
      by_cases hm : msg = ""
      · exact ⟨fps, counts, t1, m, ts, by simp [hm, dictSet]⟩
      · exact ⟨fps, counts, t1, msg, t2, by simp [hm, dictSet]⟩

theorem shaped_set_alert (d : PyDict) (m : String) (t : ℚ)
    (h : StoreShaped d) : StoreShaped (_set_alert d m t) := by
  obtain ⟨f, cl, t0, m0, ts0, rfl⟩ := h
  exact ⟨f, cl, t0, m, t, by simp [_set_alert, dictSet]⟩

theorem reachable_shaped (d : PyDict) (h : ReachableStore d) : StoreShaped d := by
  induction h with
  | init => exact ⟨0, [], 0, "", 0, rfl⟩
  | update d fps counts am t1 t2 _ ih => exact shaped_update d fps counts am t1 t2 ih
  | set_alert d m t _ ih => exact shaped_set_alert d m t ih

/-- C10: on every reachable store state the read operation succeeds (no
dict(...) conversion can raise) and returns a snapshot with exactly the
four keys fps, counts, last_update_ts and alert, the alert always
carrying message and ts; on a state with absent keys the documented
zero-valued defaults are returned, and the initial state reads back as
the zero-valued snapshot. -/
theorem c10_read_total_shape :
    (∀ d, ReachableStore d → ∃ f cl t m ts,
        get_latest_stats d = some (.vdict
          [("fps", .num f), ("counts", .vdict cl),
           ("last_update_ts", .num t),
           ("alert", .vdict [("message", .str m), ("ts", .num ts)])])) ∧
    get_latest_stats [] = some (.vdict
      [("fps", .num 0), ("counts", .vdict []), ("last_update_ts", .num 0),
       ("alert", .vdict [("message", .str ""), ("ts", .num 0)])]) ∧
    get_latest_stats _latest_stats = some (.vdict
      [("fps", .num 0), ("counts", .vdict []), ("last_update_ts", .num 0),
       ("alert", .vdict [("message", .str ""), ("ts", .num 0)])]) := by
  refine ⟨?_, by simp [get_latest_stats, dictGetD, pyDictCopy, List.find?], by rfl⟩
  intro d h
  obtain ⟨f, cl, t, m, ts, rfl⟩ := reachable_shaped d h
  exact ⟨f, cl, t, m, ts, by simp [get_latest_stats, dictGetD, pyDictCopy, List.find?]⟩

/-- Witness for C10 at the initial store state. -/
theorem c10_read_total_shape_witness :
    ∃ f cl t m ts,
      get_latest_stats _latest_stats = some (.vdict
        [("fps", .num f), ("counts", .vdict cl),
         ("last_update_ts", .num t),
         ("alert", .vdict [("message", .str m), ("ts", .num ts)])]) :=
  c10_read_total_shape.1 _latest_stats ReachableStore.init

/-! ## C7: deep-copy isolation of get_latest_stats (address model)

The Val model above is pure, so Python aliasing is invisible in it.  To
state copy isolation we model the two mutable sub-dictionaries (counts and
alert) as heap cells addressed by index: Python variables hold references,
dict(...) allocates a fresh cell with the same contents, and in-place
mutation writes a cell. -/

/-- A counts dict maps class names to (float) counts; an alert dict is its
(message, ts) pair. -/
structure StatsHeap : Type where
  countsCells : List (List (String × ℚ))
  alertCells : List (String × ℚ)

/-- The shared _latest_stats record: scalar fields by value, the counts
and alert dicts by reference. -/
structure StatsRefs : Type where
  fps : ℚ
  countsRef : Nat
  last_update_ts : ℚ
  alertRef : Nat

/-- get_latest_stats: builds a snapshot whose counts and alert are fresh
dict(...) copies of the store's cells; scalars are copied by value. -/
def heapRead (h : StatsHeap) (s : StatsRefs) : StatsHeap × StatsRefs :=
  ({ countsCells := h.countsCells ++ [h.countsCells.getD s.countsRef []],
     alertCells := h.alertCells ++ [h.alertCells.getD s.alertRef ("", 0)] },
   { fps := s.fps, countsRef := h.countsCells.length,
     last_update_ts := s.last_update_ts, alertRef := h.alertCells.length })

/-- _update_latest_stats in the address model: stores a dict(...) copy of
the caller's counts in a fresh cell, and, only for a truthy alert_message,
a fresh alert cell. -/
def heapUpdate (h : StatsHeap) (s : StatsRefs) (fps : ℚ)
    (counts : List (String × ℚ)) (am : Option String) (t1 t2 : ℚ) :
    StatsHeap × StatsRefs :=
  let h1 : StatsHeap := { h with countsCells := h.countsCells ++ [counts] }
  let s1 : StatsRefs :=
    { fps := fps, countsRef := h.countsCells.length,
      last_update_ts := t1, alertRef := s.alertRef }
  if truthyStr am then
    ({ h1 with alertCells := h1.alertCells ++ [(am.getD "", t2)] },
     { s1 with alertRef := h1.alertCells.length })
  else (h1, s1)

/-- In-place mutation of a counts dict through a reference. -/
def mutateCountsCell (h : StatsHeap) (addr : Nat) (v : List (String × ℚ)) :
    StatsHeap :=
  { h with countsCells := h.countsCells.set addr v }

/-- In-place mutation of an alert dict through a reference. -/
def mutateAlertCell (h : StatsHeap) (addr : Nat) (v : String × ℚ) :
    StatsHeap :=
  { h with alertCells := h.alertCells.set addr v }

theorem getD_append_left {α : Type} (l1 l2 : List α) (i : Nat) (d : α)
    (h : i < l1.length) : (l1 ++ l2).getD i d = l1.getD i d := by
  induction l1 generalizing i with
  | nil => simp at h
  | cons a t ih =>
      cases i with
      | zero => simp [List.getD]
      | succ j =>
          simp only [List.cons_append, List.getD_cons_succ]
          exact ih j (by simpa using h)

theorem getD_append_self {α : Type} (l : List α) (x : α) (d : α) :
    (l ++ [x]).getD l.length d = x := by
  induction l with
  | nil => simp [List.getD]
  | cons a t ih => simp [ih]

theorem getD_set_ne {α : Type} (l : List α) (i j : Nat) (v d : α)
    (h : i ≠ j) : (l.set i v).getD j d = l.getD j d := by
  induction l generalizing i j with
  | nil => simp [List.set]
  | cons a t ih =>
      cases i with
      | zero =>
          cases j with
          | zero => exact absurd rfl h
          | succ j' => simp [List.set]
      | succ i' =>
          cases j with
          | zero => simp [List.set]
          | succ j' =>
              simp only [List.set, List.getD_cons_succ]
              exact ih i' j' (fun hh => h (by rw [hh]))

theorem heapUpdate_countsCells (h : StatsHeap) (s : StatsRefs) (fps : ℚ)
    (counts : List (String × ℚ)) (am : Option String) (t1 t2 : ℚ) :
    (heapUpdate h s fps counts am t1 t2).1.countsCells =
      h.countsCells ++ [counts] := by
  unfold heapUpdate
  cases truthyStr am <;> simp

theorem heapUpdate_alertCells (h : StatsHeap) (s : StatsRefs) (fps : ℚ)
    (counts : List (String × ℚ)) (am : Option String) (t1 t2 : ℚ) :
    (heapUpdate h s fps counts am t1 t2).1.alertCells =
      (if truthyStr am then h.alertCells ++ [(am.getD "", t2)]
       else h.alertCells) := by
  unfold heapUpdate
  cases ht : truthyStr am <;> simp [ht]

/-- C7: get_latest_stats returns a copy and does not modify the store:
the snapshot carries the same contents as the store, reading leaves every
store cell unchanged, the snapshot's references are distinct from the
store's so mutating the returned counts or alert dicts leaves the store's
cells untouched, and any subsequent update leaves the snapshot's cells
with the contents they were read with. -/
theorem c7_read_isolation (h : StatsHeap) (s : StatsRefs)
    (hc : s.countsRef < h.countsCells.length)
    (ha : s.alertRef < h.alertCells.length) :
    ((heapRead h s).1.countsCells.getD (heapRead h s).2.countsRef [] =
       h.countsCells.getD s.countsRef [] ∧
     (heapRead h s).1.alertCells.getD (heapRead h s).2.alertRef ("", 0) =
       h.alertCells.getD s.alertRef ("", 0) ∧
     (heapRead h s).2.fps = s.fps ∧
     (heapRead h s).2.last_update_ts = s.last_update_ts) ∧
    ((heapRead h s).1.countsCells.getD s.countsRef [] =
       h.countsCells.getD s.countsRef [] ∧
     (heapRead h s).1.alertCells.getD s.alertRef ("", 0) =
       h.alertCells.getD s.alertRef ("", 0)) ∧
    ((heapRead h s).2.countsRef ≠ s.countsRef ∧
     (heapRead h s).2.alertRef ≠ s.alertRef ∧
     (∀ v, (mutateCountsCell (heapRead h s).1 (heapRead h s).2.countsRef
         v).countsCells.getD s.countsRef [] =
       h.countsCells.getD s.countsRef []) ∧
     (∀ v, (mutateAlertCell (heapRead h s).1 (heapRead h s).2.alertRef
         v).alertCells.getD s.alertRef ("", 0) =
       h.alertCells.getD s.alertRef ("", 0))) ∧
    (∀ fps counts am t1 t2,
      (heapUpdate (heapRead h s).1 s fps counts am t1
          t2).1.countsCells.getD (heapRead h s).2.countsRef [] =
        h.countsCells.getD s.countsRef [] ∧
      (heapUpdate (heapRead h s).1 s fps counts am t1
          t2).1.alertCells.getD (heapRead h s).2.alertRef ("", 0) =
        h.alertCells.getD s.alertRef ("", 0)) := by
  refine ⟨⟨?_, ?_, rfl, rfl⟩, ⟨?_, ?_⟩, ⟨?_, ?_, ?_, ?_⟩, ?_⟩
  · exact getD_append_self _ _ _
  · exact getD_append_self _ _ _
  · exact getD_append_left _ _ _ _ hc
  · exact getD_append_left _ _ _ _ ha
  · exact fun he => absurd (he ▸ hc) (lt_irrefl _)
  · exact fun he => absurd (he ▸ ha) (lt_irrefl _)
  · intro v
    show (((heapRead h s).1.countsCells).set (heapRead h s).2.countsRef
        v).getD s.countsRef [] = _
    rw [getD_set_ne _ _ _ _ _ (fun he => absurd (he ▸ hc) (lt_irrefl _))]
    exact getD_append_left _ _ _ _ hc
  · intro v
    show (((heapRead h s).1.alertCells).set (heapRead h s).2.alertRef
        v).getD s.alertRef ("", 0) = _
    rw [getD_set_ne _ _ _ _ _ (fun he => absurd (he ▸ ha) (lt_irrefl _))]
    exact getD_append_left _ _ _ _ ha
  · intro fps counts am t1 t2
    constructor
    · rw [heapUpdate_countsCells]
      rw [getD_append_left _ _ _ _ (by simp [heapRead])]
      exact getD_append_self _ _ _
    · rw [heapUpdate_alertCells]
      cases ht : truthyStr am with
      | false =>
          simp only [Bool.false_eq_true, if_false]
          exact getD_append_self _ _ _
      | true =>
          simp only [if_true]
          rw [getD_append_left _ _ _ _ (by simp [heapRead])]
          exact getD_append_self _ _ _

/-- A concrete heap and store state for the C7 witness. -/
def sampleHeap : StatsHeap :=
  { countsCells := [[("person", 2)]], alertCells := [("2 person detected", 4)] }

/-- Concrete store references into sampleHeap. -/
def sampleRefs : StatsRefs :=
  { fps := 5, countsRef := 0, last_update_ts := 7, alertRef := 0 }

/-- Witness for C7: at a concrete heap and store state, the returned
snapshot aliases nothing of the store, and mutating the returned counts
dict leaves the store's counts cell unchanged. -/
theorem c7_read_isolation_witness :
    (heapRead sampleHeap sampleRefs).2.countsRef ≠ sampleRefs.countsRef ∧
    (mutateCountsCell (heapRead sampleHeap sampleRefs).1
        (heapRead sampleHeap sampleRefs).2.countsRef []).countsCells.getD
      sampleRefs.countsRef [] =
      sampleHeap.countsCells.getD sampleRefs.countsRef [] :=
  ⟨(c7_read_isolation sampleHeap sampleRefs (by decide) (by decide)).2.2.1.1,
   (c7_read_isolation sampleHeap sampleRefs (by decide)
      (by decide)).2.2.1.2.2.1 []⟩

/-! ## Step and run lemmas for the frame loop -/

theorem stepFrame_nonsampling (names : Nat → String) (st : GenState)
    (fi : FrameIn) (h : ¬(st.frame_count + 1) % 6 = 0) :
    stepFrame names st fi =
      ({ st with frame_count := st.frame_count + 1 },
       { ranDetection := false, alertEmitted := none,
         overlayUsed := st.last_results }) := by
  unfold stepFrame
  rw [if_neg h]

theorem stepFrame_sampling (names : Nat → String) (st : GenState)
    (fi : FrameIn) (h : (st.frame_count + 1) % 6 = 0) :
    stepFrame names st fi =
      ({ frame_count := st.frame_count + 1, last_results := some fi.dets,
         smoothed_fps := smoothNext st.smoothed_fps (instantOf fi.infer_dt),
         last_alert_time := (alertDecision (buildCounts names fi.dets [])
           st.last_alert_time fi.now).2,
         store := _update_latest_stats st.store
           (smoothNext st.smoothed_fps (instantOf fi.infer_dt))
           ((buildCounts names fi.dets []).map
             (fun p => (p.1, Val.num (p.2 : ℚ))))
           (alertDecision (buildCounts names fi.dets [])
             st.last_alert_time fi.now).1 fi.now fi.now },
       { ranDetection := true,
         alertEmitted := (alertDecision (buildCounts names fi.dets [])
           st.last_alert_time fi.now).1,
         overlayUsed := some fi.dets }) := by
  unfold stepFrame
  rw [if_pos h]

theorem stepFrame_fst_frame_count (names : Nat → String) (st : GenState)
    (fi : FrameIn) :
    (stepFrame names st fi).1.frame_count = st.frame_count + 1 := by
  by_cases h : (st.frame_count + 1) % 6 = 0
  · rw [stepFrame_sampling names st fi h]
  · rw [stepFrame_nonsampling names st fi h]

theorem runFrames_length (names : Nat → String) (frames : List FrameIn) :
    ∀ st : GenState, ((runFrames names st frames).2).length = frames.length := by
  induction frames with
  | nil => intro st; rfl
  | cons fi rest ih => intro st; simp [runFrames, ih]

theorem runFrames_append (names : Nat → String) (l1 l2 : List FrameIn) :
    ∀ st : GenState,
      runFrames names st (l1 ++ l2) =
        ((runFrames names (runFrames names st l1).1 l2).1,
         (runFrames names st l1).2 ++
           (runFrames names (runFrames names st l1).1 l2).2) := by
  induction l1 with
  | nil => intro st; simp [runFrames]
  | cons fi rest ih => intro st; simp [runFrames, ih]

theorem runFrames_fst_frame_count (names : Nat → String)
    (frames : List FrameIn) : ∀ st : GenState,
    (runFrames names st frames).1.frame_count =
      st.frame_count + frames.length := by
  induction frames with
  | nil => intro st; rfl
  | cons fi rest ih =>
      intro st
      simp only [runFrames, List.length_cons]
      rw [ih, stepFrame_fst_frame_count]
      omega

theorem getElem_opt_eq_some_getD {α : Type} (l : List α) (i : Nat) (d : α)
    (h : i < l.length) : l[i]? = some (l.getD i d) := by
  induction l generalizing i with
  | nil => simp at h
  | cons a t ih =>
      cases i with
      | zero => simp [List.getD]
      | succ j =>
          simp only [List.getElem?_cons_succ, List.getD_cons_succ]
          exact ih j (by simpa using h)

theorem runFrames_getD (names : Nat → String) (frames : List FrameIn) :
    ∀ (st : GenState) (i : Nat), i < frames.length →
      ((runFrames names st frames).2).getD i default =
        (stepFrame names ((runFrames names st (frames.take i)).1)
          (frames.getD i default)).2 := by
  induction frames with
  | nil => intro st i h; simp at h
  | cons fi rest ih =>
      intro st i h
      cases i with
      | zero => simp [runFrames, List.getD]
      | succ j =>
          simp only [runFrames, List.getD_cons_succ, List.take_succ_cons]
          exact ih (stepFrame names st fi).1 j (by simpa using h)

/-! ## C1: sampling policy and overlay carry-forward -/

/-- The detection set of the most recent sampling frame among the first i
frames of the source (frame counts are 1-based, sampling frames are the
counts divisible by 6), or none when no detection has run yet. -/
def lastDets (frames : List FrameIn) (i : Nat) : Option (List Detection) :=
  if 6 ≤ i then some ((frames.getD (6 * (i / 6) - 1) default).dets) else none

theorem lastDets_succ_not_sampling (frames : List FrameIn) (i : Nat)
    (hs : ¬(i + 1) % 6 = 0) : lastDets frames (i + 1) = lastDets frames i := by
  unfold lastDets
  by_cases h6 : 6 ≤ i + 1
  · have h6' : 6 ≤ i := by omega
    have hdiv : 6 * ((i + 1) / 6) = 6 * (i / 6) := by omega
    rw [if_pos h6, if_pos h6', hdiv]
  · rw [if_neg h6, if_neg (by omega)]

theorem take_frame_count (names : Nat → String) (store0 : PyDict)
    (frames : List FrameIn) (i : Nat) (h : i ≤ frames.length) :
    ((runFrames names (initState store0) (frames.take i)).1).frame_count = i := by
  rw [runFrames_fst_frame_count]
  simp only [initState]
  rw [List.length_take]
  omega

theorem state_last_results (names : Nat → String) (store0 : PyDict)
    (frames : List FrameIn) : ∀ i, i ≤ frames.length →
    ((runFrames names (initState store0) (frames.take i)).1).last_results =
      lastDets frames i := by
  intro i
  induction i with
  | zero => intro h; simp [runFrames, initState, lastDets]
  | succ j ihj =>
      intro h
      have hj : j < frames.length := by omega
      rw [List.take_succ, getElem_opt_eq_some_getD frames j default hj]
      simp only [Option.toList_some]
      rw [runFrames_append]
      have hsingle : ∀ (st : GenState) (x : FrameIn),
          (runFrames names st [x]).1 = (stepFrame names st x).1 := by
        intro st x; simp [runFrames]
      rw [hsingle]
      have hcount := take_frame_count names store0 frames j (by omega)
      by_cases hs : (j + 1) % 6 = 0
      · rw [stepFrame_sampling _ _ _ (by rw [hcount]; exact hs)]
        unfold lastDets
        have h6 : 6 ≤ j + 1 := by omega
        have hidx : 6 * ((j + 1) / 6) - 1 = j := by omega
        rw [if_pos h6, hidx]
      · rw [stepFrame_nonsampling _ _ _ (by rw [hcount]; exact hs)]
        show ((runFrames names (initState store0) (frames.take j)).1).last_results = _
        rw [ihj (by omega), lastDets_succ_not_sampling frames j hs]

/-- C1: in every run of the loop, with the frame counter incremented once
per frame read, detection (the model call) runs on the i-th read frame iff
the counter value i+1 is divisible by 6; on every other frame the overlay
is drawn from the detection result of the most recent sampling frame, and
before the first sampling frame no overlay is drawn. -/
theorem c1_sampling_overlay (names : Nat → String) (store0 : PyDict)
    (frames : List FrameIn) (i : Nat) (h : i < frames.length) :
    (((runFrames names (initState store0) frames).2).getD i
        default).ranDetection = decide ((i + 1) % 6 = 0) ∧
    (((runFrames names (initState store0) frames).2).getD i
        default).overlayUsed = lastDets frames (i + 1) := by
  rw [runFrames_getD names frames (initState store0) i h]
  have hcount := take_frame_count names store0 frames i (le_of_lt h)
  by_cases hs : (i + 1) % 6 = 0
  · rw [stepFrame_sampling _ _ _ (by rw [hcount]; exact hs)]
    refine ⟨by simp [hs], ?_⟩
    unfold lastDets
    have h6 : 6 ≤ i + 1 := by omega
    have hidx : 6 * ((i + 1) / 6) - 1 = i := by omega
    rw [if_pos h6, hidx]
  · rw [stepFrame_nonsampling _ _ _ (by rw [hcount]; exact hs)]
    refine ⟨by simp [hs], ?_⟩
    show ((runFrames names (initState store0) (frames.take i)).1).last_results = _
    rw [state_last_results names store0 frames i (le_of_lt h),
        lastDets_succ_not_sampling frames i hs]

/-- Witness for C1 at a concrete run: seven identical frames, checked at
the sixth frame (a sampling frame). -/
theorem c1_sampling_overlay_witness :
    (((runFrames (fun _ => "person") (initState _latest_stats)
        (List.replicate 7 default)).2.getD 5 default).ranDetection
      = decide ((5 + 1) % 6 = 0)) ∧
    (((runFrames (fun _ => "person") (initState _latest_stats)
        (List.replicate 7 default)).2.getD 5 default).overlayUsed
      = lastDets (List.replicate 7 default) (5 + 1)) :=
  c1_sampling_overlay (fun _ => "person") _latest_stats
    (List.replicate 7 default) 5 (by decide)

/-! ## C2: instant FPS and exponential smoothing -/

/-- The EMA recurrence with decay 0.9 from the spec. -/
def emaStep (s x : ℚ) : ℚ := (9 / 10) * s + (1 / 10) * x

/-- The specified smoothed-FPS value for a sequence of instant values:
seeded directly by the first sample (no averaging), then the EMA
recurrence; 0 before the first sample. -/
def emaSpec : List ℚ → ℚ
  | [] => 0
  | i :: rest => rest.foldl emaStep i

/-- The inference times measured on the sampling frames of a run whose
frame counter starts at n. -/
def sampledDts (n : Nat) : List FrameIn → List ℚ
  | [] => []
  | fi :: rest =>
      if (n + 1) % 6 = 0 then fi.infer_dt :: sampledDts (n + 1) rest
      else sampledDts (n + 1) rest

theorem instantOf_pos (dt : ℚ) : 0 < instantOf dt := by
  unfold instantOf
  have h : (0 : ℚ) < max dt (1 / 1000000) :=
    lt_of_lt_of_le (by norm_num) (le_max_right _ _)
  exact one_div_pos.mpr h

theorem emaStep_pos (s x : ℚ) (hs : 0 < s) (hx : 0 < x) : 0 < emaStep s x := by
  unfold emaStep
  nlinarith

theorem foldl_emaStep_pos (l : List ℚ) :
    ∀ s, 0 < s → (∀ y ∈ l, 0 < y) → 0 < l.foldl emaStep s := by
  induction l with
  | nil => intro s hs _; simpa using hs
  | cons x t ih =>
      intro s hs hl
      simp only [List.foldl_cons]
      exact ih _ (emaStep_pos s x hs (hl x (by simp)))
        (fun y hy => hl y (by simp [hy]))

theorem emaSpec_pos (l : List ℚ) (hne : l ≠ []) (hl : ∀ y ∈ l, 0 < y) :
    0 < emaSpec l := by
  cases l with
  | nil => exact absurd rfl hne
  | cons x t =>
      exact foldl_emaStep_pos t x (hl x (by simp))
        (fun y hy => hl y (by simp [hy]))

theorem emaSpec_concat (l : List ℚ) (x : ℚ) (hne : l ≠ []) :
    emaSpec (l ++ [x]) = emaStep (emaSpec l) x := by
  cases l with
  | nil => exact absurd rfl hne
  | cons a t => simp [emaSpec, List.foldl_append]

theorem smoothNext_emaSpec (l : List ℚ) (x : ℚ) (hl : ∀ y ∈ l, 0 < y) :
    smoothNext (emaSpec l) x = emaSpec (l ++ [x]) := by
  by_cases hne : l = []
  · subst hne
    simp [smoothNext, emaSpec]
  · have hpos := emaSpec_pos l hne hl
    rw [smoothNext, if_neg (by exact ne_of_gt hpos), emaSpec_concat l x hne]
    rfl

theorem runFrames_smoothed (names : Nat → String) (frames : List FrameIn) :
    ∀ (st : GenState) (pres : List ℚ),
      st.smoothed_fps = emaSpec pres → (∀ y ∈ pres, 0 < y) →
      (runFrames names st frames).1.smoothed_fps =
        emaSpec (pres ++ (sampledDts st.frame_count frames).map instantOf) := by
  induction frames with
  | nil =>
      intro st pres h hp
      simpa [runFrames, sampledDts] using h
  | cons fi rest ih =>
      intro st pres h hp
      simp only [runFrames]
      by_cases hs : (st.frame_count + 1) % 6 = 0
      · rw [stepFrame_sampling _ _ _ hs]
        rw [show sampledDts st.frame_count (fi :: rest) =
              fi.infer_dt :: sampledDts (st.frame_count + 1) rest from by
            simp [sampledDts, hs]]
        simp only [List.map_cons]
        rw [show pres ++ instantOf fi.infer_dt ::
              (sampledDts (st.frame_count + 1) rest).map instantOf =
            (pres ++ [instantOf fi.infer_dt]) ++
              (sampledDts (st.frame_count + 1) rest).map instantOf from by simp]
        have hsm : smoothNext st.smoothed_fps (instantOf fi.infer_dt) =
            emaSpec (pres ++ [instantOf fi.infer_dt]) := by
          rw [h]
          exact smoothNext_emaSpec pres _ hp
        have hp' : ∀ y ∈ pres ++ [instantOf fi.infer_dt], 0 < y := by
          intro y hy
          rcases List.mem_append.mp hy with hy | hy
          · exact hp y hy
          · simp at hy
            rw [hy]
            exact instantOf_pos _
        exact ih _ (pres ++ [instantOf fi.infer_dt]) hsm hp'
      · rw [stepFrame_nonsampling _ _ _ hs]
        rw [show sampledDts st.frame_count (fi :: rest) =
              sampledDts (st.frame_count + 1) rest from by simp [sampledDts, hs]]
        exact ih _ pres h hp

/-- C2: on each sampling frame the instant FPS is 1/max(dt, 1e-6) for the
measured inference time dt, and the loop's smoothed FPS equals the spec's
EMA with decay 0.9 over the sequence of instant values, seeded directly by
the first instant value (emaSpec folds the recurrence 0.9 s + 0.1 x over
the instant values starting from the first one). -/
theorem c2_fps_smoothing (names : Nat → String) (store0 : PyDict)
    (frames : List FrameIn) :
    (runFrames names (initState store0) frames).1.smoothed_fps =
      emaSpec ((sampledDts 0 frames).map instantOf) := by
  have h := runFrames_smoothed names frames (initState store0) [] rfl (by simp)
  simpa [initState] using h

/-! ## C3: the alert cooldown -/

theorem update_find_fps (d : PyDict) (fps : ℚ) (counts : List (String × Val))
    (am : Option String) (t1 t2 : ℚ) :
    dictFind (_update_latest_stats d fps counts am t1 t2) "fps" =
      some (.num fps) := by
  rw [update_eq_updBase]
  cases ht : truthyStr am with
  | false => simp only [Bool.false_eq_true, if_false]; exact updBase_find_fps _ _ _ _
  | true =>
      simp only [if_true]
      rw [dictFind_dictSet_ne _ _ _ _ (by decide)]
      exact updBase_find_fps _ _ _ _

theorem update_find_counts (d : PyDict) (fps : ℚ) (counts : List (String × Val))
    (am : Option String) (t1 t2 : ℚ) :
    dictFind (_update_latest_stats d fps counts am t1 t2) "counts" =
      some (.vdict counts) := by
  rw [update_eq_updBase]
  cases ht : truthyStr am with
  | false =>
      simp only [Bool.false_eq_true, if_false]
      exact updBase_find_counts _ _ _ _
  | true =>
      simp only [if_true]
      rw [dictFind_dictSet_ne _ _ _ _ (by decide)]
      exact updBase_find_counts _ _ _ _

theorem update_find_alert_none (d : PyDict) (fps : ℚ)
    (counts : List (String × Val)) (t1 t2 : ℚ) :
    dictFind (_update_latest_stats d fps counts none t1 t2) "alert" =
      dictFind d "alert" := by
  rw [update_eq_updBase]
  simp only [truthyStr, Bool.false_eq_true, if_false]
  exact updBase_find_alert _ _ _ _

theorem alertDecision_empty (lastT nowT : ℚ) :
    alertDecision [] lastT nowT = (none, lastT) := rfl

theorem alertDecision_cons (c : String × Nat) (cs : List (String × Nat))
    (lastT nowT : ℚ) :
    alertDecision (c :: cs) lastT nowT =
      (if nowT - lastT > 3 then
        (some (toString ((List.lookup (pluralityMax c cs).1 (c :: cs)).getD 0)
           ++ " " ++ (pluralityMax c cs).1 ++ " detected"), nowT)
       else (none, lastT)) := rfl

theorem alertDecision_isSome (counts : List (String × Nat)) (lastT nowT : ℚ)
    (h : counts ≠ []) :
    ((alertDecision counts lastT nowT).1.isSome ↔ nowT - lastT > 3) := by
  cases counts with
  | nil => exact absurd rfl h
  | cons c cs =>
      rw [alertDecision_cons]
      by_cases hc : nowT - lastT > 3
      · simp [hc]
      · simp [hc]

theorem alertDecision_not_elapsed (counts : List (String × Nat))
    (lastT nowT : ℚ) (h : ¬nowT - lastT > 3) :
    alertDecision counts lastT nowT = (none, lastT) := by
  cases counts with
  | nil => rfl
  | cons c cs => rw [alertDecision_cons, if_neg h]

theorem alertDecision_none_time (counts : List (String × Nat))
    (lastT nowT : ℚ) (h : (alertDecision counts lastT nowT).1 = none) :
    (alertDecision counts lastT nowT).2 = lastT := by
  cases counts with
  | nil => rfl
  | cons c cs =>
      rw [alertDecision_cons] at h ⊢
      by_cases hc : nowT - lastT > 3
      · rw [if_pos hc] at h
        exact absurd h (by simp)
      · rw [if_neg hc]

/-- C3: on a sampling frame with non-empty filtered counts, with the last
emitted alert at time t1 and the current time t2, an alert is emitted iff
t2 - t1 > 3; when the cooldown has not elapsed the fps and counts are
still written to the store but the store's alert binding and the cooldown
timer are unchanged; with empty counts no alert is emitted and the timer
is unchanged; and any frame that emits no alert leaves the cooldown
timer unchanged. -/
theorem c3_alert_cooldown (names : Nat → String) :
    (∀ (st : GenState) (fi : FrameIn),
      (stepFrame names st fi).2.alertEmitted = none →
      (stepFrame names st fi).1.last_alert_time = st.last_alert_time) ∧
    (∀ (st : GenState) (fi : FrameIn) (t1 : ℚ),
      (st.frame_count + 1) % 6 = 0 →
      buildCounts names fi.dets [] ≠ [] →
      st.last_alert_time = t1 →
      ((stepFrame names st fi).2.alertEmitted.isSome ↔ fi.now - t1 > 3)) ∧
    (∀ (st : GenState) (fi : FrameIn),
      (st.frame_count + 1) % 6 = 0 →
      buildCounts names fi.dets [] ≠ [] →
      ¬fi.now - st.last_alert_time > 3 →
      ((stepFrame names st fi).1.last_alert_time = st.last_alert_time ∧
       (stepFrame names st fi).2.alertEmitted = none ∧
       dictFind (stepFrame names st fi).1.store "fps" =
         some (.num (smoothNext st.smoothed_fps (instantOf fi.infer_dt))) ∧
       dictFind (stepFrame names st fi).1.store "counts" =
         some (.vdict ((buildCounts names fi.dets []).map
           (fun p => (p.1, Val.num (p.2 : ℚ))))) ∧
       dictFind (stepFrame names st fi).1.store "alert" =
         dictFind st.store "alert")) ∧
    (∀ (st : GenState) (fi : FrameIn),
      (st.frame_count + 1) % 6 = 0 →
      buildCounts names fi.dets [] = [] →
      ((stepFrame names st fi).2.alertEmitted = none ∧
       (stepFrame names st fi).1.last_alert_time = st.last_alert_time)) := by
  refine ⟨?_, ?_, ?_, ?_⟩
  · intro st fi h
    by_cases hs : (st.frame_count + 1) % 6 = 0
    · rw [stepFrame_sampling _ _ _ hs] at h ⊢
      exact alertDecision_none_time _ _ _ h
    · rw [stepFrame_nonsampling _ _ _ hs]
  · intro st fi t1 hs hne ht1
    rw [stepFrame_sampling _ _ _ hs]
    rw [ht1] at *
    exact alertDecision_isSome _ _ _ hne
  · intro st fi hs hne hcd
    rw [stepFrame_sampling _ _ _ hs]
    rw [alertDecision_not_elapsed _ _ _ hcd]
    dsimp only
    exact ⟨rfl, rfl, update_find_fps _ _ _ _ _ _, update_find_counts _ _ _ _ _ _,
      update_find_alert_none _ _ _ _ _⟩
  · intro st fi hs hemp
    rw [stepFrame_sampling _ _ _ hs, hemp]
    rw [alertDecision_empty]
    exact ⟨rfl, rfl⟩

/-- A fixed class-name table for witnesses: class id 0 is "person". -/
def namesP : Nat → String := fun _ => "person"

/-- One person detection for witnesses. -/
def personDet : Detection := { cls := 0, bbox := (0, 0, 10, 10), conf := 9 / 10 }

/-- A loop state just before a sampling frame, cooldown timer at 0. -/
def stArm : GenState :=
  { frame_count := 5, last_results := none, smoothed_fps := 0,
    last_alert_time := 0, store := _latest_stats }

/-- A frame input carrying one person detection at time 10. -/
def fiArm : FrameIn := { dets := [personDet], infer_dt := 1, now := 10 }

/-- Witness for C3: at a concrete sampling frame with one person detected
and cooldown timer 0, the emitted-alert test reduces to the cooldown
comparison. -/
theorem c3_alert_cooldown_witness :
    (stepFrame namesP stArm fiArm).2.alertEmitted.isSome ↔
      fiArm.now - (0 : ℚ) > 3 :=
  (c3_alert_cooldown namesP).2.1 stArm fiArm 0 (by decide) (by decide) rfl

/-! ## C4: the counts mapping only ever holds allowlisted class names -/

/-- Boolean check that every name in a list belongs to the allowlist. -/
def keysAllowed (l : List String) : Bool :=
  l.all (fun k => decide (k ∈ allowed_classes))

/-- The keys of the counts dict currently held by the store. -/
def storeCountsKeys (d : PyDict) : List String :=
  match dictFind d "counts" with
  | some (.vdict l) => l.map (fun p => p.1)
  | _ => []

theorem keysAllowed_iff (l : List String) :
    keysAllowed l = true ↔ ∀ k ∈ l, k ∈ allowed_classes := by
  simp [keysAllowed]

theorem bump_keys_allowed (counts : List (String × Nat)) (k : String)
    (hc : ∀ q ∈ counts, q.1 ∈ allowed_classes) (hk : k ∈ allowed_classes) :
    ∀ q ∈ bump counts k, q.1 ∈ allowed_classes := by
  intro q hq
  unfold bump at hq
  by_cases h : counts.any (fun p => p.1 = k)
  · rw [if_pos h] at hq
    obtain ⟨p, hp, hpq⟩ := List.mem_map.mp hq
    by_cases hpk : p.1 = k
    · rw [if_pos hpk] at hpq
      rw [← hpq]
      exact hc p hp
    · rw [if_neg hpk] at hpq
      rw [← hpq]
      exact hc p hp
  · rw [if_neg h] at hq
    rcases List.mem_append.mp hq with hq | hq
    · exact hc q hq
    · simp at hq
      rw [hq]
      exact hk

theorem buildCounts_cons (names : Nat → String) (det : Detection)
    (rest : List Detection) (counts : List (String × Nat)) :
    buildCounts names (det :: rest) counts =
      (if is_allowed_class names det.cls then
        buildCounts names rest (bump counts (names det.cls))
       else buildCounts names rest counts) := rfl

theorem buildCounts_keys_allowed (names : Nat → String) :
    ∀ (dets : List Detection) (counts : List (String × Nat)),
      (∀ q ∈ counts, q.1 ∈ allowed_classes) →
      ∀ q ∈ buildCounts names dets counts, q.1 ∈ allowed_classes := by
  intro dets
  induction dets with
  | nil => intro counts hc q hq; exact hc q hq
  | cons det rest ih =>
      intro counts hc q hq
      rw [buildCounts_cons] at hq
      by_cases ha : is_allowed_class names det.cls
      · rw [if_pos ha] at hq
        have hk : names det.cls ∈ allowed_classes := by
          have hb := ha
          unfold is_allowed_class at hb
          exact of_decide_eq_true hb
        exact ih _ (bump_keys_allowed counts _ hc hk) q hq
      · rw [if_neg ha] at hq
        exact ih counts hc q hq

theorem stepFrame_store_keys (names : Nat → String) (st : GenState)
    (fi : FrameIn) (h : keysAllowed (storeCountsKeys st.store) = true) :
    keysAllowed (storeCountsKeys (stepFrame names st fi).1.store) = true := by
  by_cases hs : (st.frame_count + 1) % 6 = 0
  · rw [stepFrame_sampling _ _ _ hs]
    dsimp only
    have hfind : storeCountsKeys (_update_latest_stats st.store
        (smoothNext st.smoothed_fps (instantOf fi.infer_dt))
        ((buildCounts names fi.dets []).map (fun p => (p.1, Val.num (p.2 : ℚ))))
        (alertDecision (buildCounts names fi.dets [])
          st.last_alert_time fi.now).1 fi.now fi.now) =
        ((buildCounts names fi.dets []).map
          (fun p => (p.1, Val.num (p.2 : ℚ)))).map (fun p => p.1) := by
      unfold storeCountsKeys
      rw [update_find_counts]
    rw [hfind, keysAllowed_iff]
    intro k hk
    rw [List.map_map] at hk
    obtain ⟨p, hp, hpk⟩ := List.mem_map.mp hk
    rw [← hpk]
    exact buildCounts_keys_allowed names fi.dets [] (by simp) p hp
  · rw [stepFrame_nonsampling _ _ _ hs]
    exact h

/-- C4: for any detection set the model may return, the counts mapping
built on a sampling frame holds only allowlisted class names, and the
counts dict held by the statistics store after any run of the loop from
the initial store keeps that invariant (every prefix of a run is itself a
run, so this covers the state after every update). -/
theorem c4_counts_allowlist (names : Nat → String) (frames : List FrameIn) :
    (∀ dets : List Detection,
      keysAllowed ((buildCounts names dets []).map (fun p => p.1)) = true) ∧
    keysAllowed (storeCountsKeys
      ((runFrames names (initState _latest_stats) frames).1.store)) = true := by
  constructor
  · intro dets
    rw [keysAllowed_iff]
    intro k hk
    obtain ⟨p, hp, hpk⟩ := List.mem_map.mp hk
    rw [← hpk]
    exact buildCounts_keys_allowed names dets [] (by simp) p hp
  · have main : ∀ (fr : List FrameIn) (st : GenState),
        keysAllowed (storeCountsKeys st.store) = true →
        keysAllowed (storeCountsKeys (runFrames names st fr).1.store) = true := by
      intro fr
      induction fr with
      | nil => intro st h; exact h
      | cons fi rest ih =>
          intro st h
          simp only [runFrames]
          exact ih _ (stepFrame_store_keys names st fi h)
    exact main frames (initState _latest_stats) (by decide)

/-! ## C5: the alert text names a plurality class -/

theorem pluralityMax_cons (best q : String × Nat) (rest : List (String × Nat)) :
    pluralityMax best (q :: rest) =
      pluralityMax (if q.2 > best.2 then q else best) rest := rfl

/-- Python max with a key function returns the first element attaining the
maximum: the result splits the list into a strictly smaller prefix, the
result itself, and a no-larger remainder. -/
theorem pluralityMax_split (l : List (String × Nat)) :
    ∀ best : String × Nat,
      ∃ l1 l2, best :: l = l1 ++ pluralityMax best l :: l2 ∧
        (∀ p ∈ l1, p.2 < (pluralityMax best l).2) ∧
        (∀ p ∈ best :: l, p.2 ≤ (pluralityMax best l).2) := by
  induction l with
  | nil =>
      intro best
      exact ⟨[], [], rfl, by simp, by simp [pluralityMax]⟩
  | cons q rest ih =>
      intro best
      rw [pluralityMax_cons]
      by_cases hq : q.2 > best.2
      · rw [if_pos hq]
        obtain ⟨l1, l2, heq, hlt, hle⟩ := ih q
        have hqr : q.2 ≤ (pluralityMax q rest).2 :=
          hle q (List.mem_cons_self q rest)
        refine ⟨best :: l1, l2, ?_, ?_, ?_⟩
        · rw [List.cons_append, ← heq]
        · intro p hp
          rcases List.mem_cons.mp hp with hp | hp
          · rw [hp]
            exact lt_of_lt_of_le hq hqr
          · exact hlt p hp
        · intro p hp
          rcases List.mem_cons.mp hp with hp | hp
          · rw [hp]
            exact le_of_lt (lt_of_lt_of_le hq hqr)
          · exact hle p hp
      · rw [if_neg hq]
        have hqb : q.2 ≤ best.2 := le_of_not_lt hq
        obtain ⟨l1, l2, heq, hlt, hle⟩ := ih best
        have hbr : best.2 ≤ (pluralityMax best rest).2 :=
          hle best (List.mem_cons_self best rest)
        cases l1 with
        | nil =>
            simp only [List.nil_append, List.cons.injEq] at heq
            refine ⟨[], q :: l2, ?_, by simp, ?_⟩
            · simp only [List.nil_append]
              rw [← heq.1, ← heq.2]
            · intro p hp
              rcases List.mem_cons.mp hp with hp | hp
              · rw [hp]
                exact hbr
              · rcases List.mem_cons.mp hp with hp | hp
                · rw [hp]
                  exact le_trans hqb hbr
                · exact hle p (List.mem_cons_of_mem best hp)
        | cons b t =>
            rw [List.cons_append, List.cons.injEq] at heq
            have hbrl : b.2 < (pluralityMax best rest).2 :=
              hlt b (List.mem_cons_self b t)
            have hb2 : best.2 = b.2 := by rw [heq.1]
            refine ⟨best :: q :: t, l2, ?_, ?_, ?_⟩
            · rw [List.cons_append, List.cons_append, ← heq.2]
            · intro p hp
              rcases List.mem_cons.mp hp with hp | hp
              · rw [hp, hb2]
                exact hbrl
              · rcases List.mem_cons.mp hp with hp | hp
                · rw [hp]
                  exact lt_of_le_of_lt (hqb.trans (le_of_eq hb2)) hbrl
                · exact hlt p (List.mem_cons_of_mem b hp)
            · intro p hp
              rcases List.mem_cons.mp hp with hp | hp
              · rw [hp]
                exact hbr
              · rcases List.mem_cons.mp hp with hp | hp
                · rw [hp]
                  exact le_trans hqb hbr
                · exact hle p (List.mem_cons_of_mem best hp)

theorem bump_values_pos (counts : List (String × Nat)) (k : String)
    (h : ∀ q ∈ counts, 1 ≤ q.2) : ∀ q ∈ bump counts k, 1 ≤ q.2 := by
  intro q hq
  unfold bump at hq
  by_cases hm : counts.any (fun p => p.1 = k)
  · rw [if_pos hm] at hq
    obtain ⟨p, hp, hpq⟩ := List.mem_map.mp hq
    by_cases hpk : p.1 = k
    · rw [if_pos hpk] at hpq
      rw [← hpq]
      omega
    · rw [if_neg hpk] at hpq
      rw [← hpq]
      exact h p hp
  · rw [if_neg hm] at hq
    rcases List.mem_append.mp hq with hq | hq
    · exact h q hq
    · simp at hq
      rw [hq]

theorem bump_keys_nodup (counts : List (String × Nat)) (k : String)
    (h : (counts.map (fun p => p.1)).Nodup) :
    ((bump counts k).map (fun p => p.1)).Nodup := by
  unfold bump
  by_cases hm : counts.any (fun p => p.1 = k)
  · rw [if_pos hm]
    have hkeys : (counts.map (fun p => if p.1 = k then (p.1, p.2 + 1) else p)).map
        (fun p => p.1) = counts.map (fun p => p.1) := by
      rw [List.map_map]
      apply List.map_congr_left
      intro p _
      by_cases hpk : p.1 = k
      · simp [hpk]
      · simp [hpk]
    rw [hkeys]
    exact h
  · rw [if_neg hm]
    rw [List.map_append]
    rw [List.nodup_append]
    refine ⟨h, by simp, ?_⟩
    intro a ha hak
    simp only [List.map_cons, List.map_nil, List.mem_singleton] at hak
    obtain ⟨p, hp, hpa⟩ := List.mem_map.mp ha
    apply hm
    refine List.any_eq_true.mpr ⟨p, hp, ?_⟩
    rw [hak] at hpa
    simp [hpa]

theorem buildCounts_values_pos (names : Nat → String) :
    ∀ (dets : List Detection) (counts : List (String × Nat)),
      (∀ q ∈ counts, 1 ≤ q.2) →
      ∀ q ∈ buildCounts names dets counts, 1 ≤ q.2 := by
  intro dets
  induction dets with
  | nil => intro counts hc q hq; exact hc q hq
  | cons det rest ih =>
      intro counts hc q hq
      rw [buildCounts_cons] at hq
      by_cases ha : is_allowed_class names det.cls
      · rw [if_pos ha] at hq
        exact ih _ (bump_values_pos counts _ hc) q hq
      · rw [if_neg ha] at hq
        exact ih counts hc q hq

theorem buildCounts_keys_nodup (names : Nat → String) :
    ∀ (dets : List Detection) (counts : List (String × Nat)),
      ((counts.map (fun p => p.1)).Nodup) →
      ((buildCounts names dets counts).map (fun p => p.1)).Nodup := by
  intro dets
  induction dets with
  | nil => intro counts hc; exact hc
  | cons det rest ih =>
      intro counts hc
      rw [buildCounts_cons]
      by_cases ha : is_allowed_class names det.cls
      · rw [if_pos ha]
        exact ih _ (bump_keys_nodup counts _ hc)
      · rw [if_neg ha]
        exact ih counts hc

theorem lookup_of_nodup (l : List (String × Nat)) :
    ∀ p : String × Nat, (l.map (fun q => q.1)).Nodup → p ∈ l →
      List.lookup p.1 l = some p.2 := by
  induction l with
  | nil => intro p _ hp; cases hp
  | cons a t ih =>
      intro p hnd hp
      rcases List.mem_cons.mp hp with hp | hp
      · rw [hp]
        simp [List.lookup]
      · have hne : (p.1 == a.1) = false := by
          rw [beq_eq_false_iff_ne]
          intro he
          have hmem : p.1 ∈ t.map (fun q => q.1) :=
            List.mem_map.mpr ⟨p, hp, rfl⟩
          rw [he] at hmem
          exact (List.nodup_cons.mp (by simpa using hnd)).1 hmem
        rw [List.lookup, hne]
        exact ih p (List.nodup_cons.mp (by simpa using hnd)).2 hp

/-- C5: whenever an alert is emitted its text is exactly
"count class detected" where class is the plurality class of the counts
mapping built on that sampling frame (a class of maximal count, first
such in insertion order) and count is its count, at least 1. -/
theorem c5_alert_text (names : Nat → String) (st : GenState) (fi : FrameIn)
    (msg : String)
    (h : (stepFrame names st fi).2.alertEmitted = some msg) :
    ∃ (c : String) (k : Nat) (l1 l2 : List (String × Nat)),
      buildCounts names fi.dets [] = l1 ++ (c, k) :: l2 ∧
      msg = toString k ++ " " ++ c ++ " detected" ∧
      1 ≤ k ∧
      (∀ q ∈ buildCounts names fi.dets [], q.2 ≤ k) ∧
      (∀ q ∈ l1, q.2 < k) := by
  by_cases hs : (st.frame_count + 1) % 6 = 0
  · rw [stepFrame_sampling _ _ _ hs] at h
    dsimp only at h
    rcases hcs : buildCounts names fi.dets [] with _ | ⟨c0, cs⟩
    · rw [hcs, alertDecision_empty] at h
      exact absurd h (by simp)
    · rw [hcs, alertDecision_cons] at h
      by_cases hcd : fi.now - st.last_alert_time > 3
      · rw [if_pos hcd] at h
        simp only [Prod.fst] at h
        have hmsg := Option.some.inj h
        obtain ⟨l1, l2, heq, hlt, hle⟩ := pluralityMax_split cs c0
        have hnd : ((c0 :: cs).map (fun q => q.1)).Nodup := by
          rw [← hcs]
          exact buildCounts_keys_nodup names fi.dets [] (by simp)
        have hpos : 1 ≤ (pluralityMax c0 cs).2 := by
          have hmem : pluralityMax c0 cs ∈ c0 :: cs := by
            rw [heq]
            exact List.mem_append.mpr (Or.inr (List.mem_cons_self _ _))
          have := buildCounts_values_pos names fi.dets [] (by simp)
            (pluralityMax c0 cs) (by rw [hcs]; exact hmem)
          exact this
        have hlook : List.lookup (pluralityMax c0 cs).1 (c0 :: cs) =
            some (pluralityMax c0 cs).2 := by
          apply lookup_of_nodup (c0 :: cs) (pluralityMax c0 cs) hnd
          rw [heq]
          exact List.mem_append.mpr (Or.inr (List.mem_cons_self _ _))
        refine ⟨(pluralityMax c0 cs).1, (pluralityMax c0 cs).2, l1, l2,
          ?_, ?_, hpos, ?_, hlt⟩
        · exact heq
        · rw [← hmsg, hlook]
          rfl
        · intro q hq
          exact hle q hq
      · rw [if_neg hcd] at h
        exact absurd h (by simp)
  · rw [stepFrame_nonsampling _ _ _ hs] at h
    exact absurd h (by simp)

theorem stArm_alert_emitted :
    (stepFrame namesP stArm fiArm).2.alertEmitted = some "1 person detected" := by
  rw [stepFrame_sampling _ _ _ (by decide)]
  dsimp only
  rw [show buildCounts namesP fiArm.dets [] = [("person", 1)] from by decide]
  rw [alertDecision_cons]
  rw [if_pos (show fiArm.now - stArm.last_alert_time > 3 from by
    norm_num [stArm, fiArm])]
  decide

/-- Witness for C5: the alert emitted at the concrete sampling frame of
the C3 witness scenario is "1 person detected", and the plurality-class
description holds of it. -/
theorem c5_alert_text_witness :
    ∃ (c : String) (k : Nat) (l1 l2 : List (String × Nat)),
      buildCounts namesP fiArm.dets [] = l1 ++ (c, k) :: l2 ∧
      "1 person detected" = toString k ++ " " ++ c ++ " detected" ∧
      1 ≤ k ∧
      (∀ q ∈ buildCounts namesP fiArm.dets [], q.2 ≤ k) ∧
      (∀ q ∈ l1, q.2 < k) :=
  c5_alert_text namesP stArm fiArm "1 person detected" stArm_alert_emitted

/-! ## C8: the 12-frame end-to-end scenario -/

theorem runFrames_cons_eq (names : Nat → String) (st st' : GenState)
    (fi : FrameIn) (out : FrameOut) (rest : List FrameIn)
    (h : stepFrame names st fi = (st', out)) :
    runFrames names st (fi :: rest) =
      ((runFrames names st' rest).1,
       out :: (runFrames names st' rest).2) := by
  simp only [runFrames, h]

theorem stepNS_lit (names : Nat → String) (k : Nat)
    (lr : Option (List Detection)) (sm la : ℚ) (sto : PyDict) (fi : FrameIn)
    (h : ¬(k + 1) % 6 = 0) :
    stepFrame names ⟨k, lr, sm, la, sto⟩ fi =
      (⟨k + 1, lr, sm, la, sto⟩, ⟨false, none, lr⟩) := by
  rw [stepFrame_nonsampling _ _ _ h]

/-- One stub detection with the given class id, box and confidence. -/
def pDet (pid : Nat) (bb : Int × Int × Int × Int) (cf : ℚ) : Detection :=
  { cls := pid, bbox := bb, conf := cf }

/-- A frame on which the stub detector reports exactly one detection. -/
def mkFrame (pid : Nat) (bb : Int × Int × Int × Int) (cf : ℚ)
    (dt now : ℚ) : FrameIn :=
  { dets := [pDet pid bb cf], infer_dt := dt, now := now }

/-- The store contents after the frame-6 update of the 12-frame scenario. -/
def s6Store (store0 : PyDict) (d6 n6 : ℚ) : PyDict :=
  _update_latest_stats store0 (instantOf d6)
    (([("person", 1)] : List (String × Nat)).map
      (fun p => (p.1, Val.num (p.2 : ℚ))))
    (some "1 person detected") n6 n6

/-- C8: a source yielding exactly 12 frames and a detector reporting one
"person" detection on every call give exactly 2 detection invocations (on
frames 6 and 12), exactly one alert, emitted at frame 6 (cooldown timer
starting at 0, the frame-6 time clearing the 3-second cooldown and frame
12 falling inside it), and exactly 12 output chunks (one FrameOut per
frame). -/
theorem c8_twelve_frames (names : Nat → String) (pid : Nat)
    (hperson : names pid = "person") (bb : Int × Int × Int × Int) (cf : ℚ)
    (store0 : PyDict) (d1 d2 d3 d4 d5 d6 d7 d8 d9 d10 d11 d12 : ℚ)
    (n1 n2 n3 n4 n5 n6 n7 n8 n9 n10 n11 n12 : ℚ)
    (h6 : n6 - 0 > 3) (h12 : ¬n12 - n6 > 3) :
    ((runFrames names (initState store0)
        [mkFrame pid bb cf d1 n1, mkFrame pid bb cf d2 n2,
         mkFrame pid bb cf d3 n3, mkFrame pid bb cf d4 n4,
         mkFrame pid bb cf d5 n5, mkFrame pid bb cf d6 n6,
         mkFrame pid bb cf d7 n7, mkFrame pid bb cf d8 n8,
         mkFrame pid bb cf d9 n9, mkFrame pid bb cf d10 n10,
         mkFrame pid bb cf d11 n11, mkFrame pid bb cf d12 n12]).2).map
        (fun o => o.ranDetection) =
      [false, false, false, false, false, true,
       false, false, false, false, false, true] ∧
    ((runFrames names (initState store0)
        [mkFrame pid bb cf d1 n1, mkFrame pid bb cf d2 n2,
         mkFrame pid bb cf d3 n3, mkFrame pid bb cf d4 n4,
         mkFrame pid bb cf d5 n5, mkFrame pid bb cf d6 n6,
         mkFrame pid bb cf d7 n7, mkFrame pid bb cf d8 n8,
         mkFrame pid bb cf d9 n9, mkFrame pid bb cf d10 n10,
         mkFrame pid bb cf d11 n11, mkFrame pid bb cf d12 n12]).2).map
        (fun o => o.alertEmitted) =
      [none, none, none, none, none, some "1 person detected",
       none, none, none, none, none, none] ∧
    ((runFrames names (initState store0)
        [mkFrame pid bb cf d1 n1, mkFrame pid bb cf d2 n2,
         mkFrame pid bb cf d3 n3, mkFrame pid bb cf d4 n4,
         mkFrame pid bb cf d5 n5, mkFrame pid bb cf d6 n6,
         mkFrame pid bb cf d7 n7, mkFrame pid bb cf d8 n8,
         mkFrame pid bb cf d9 n9, mkFrame pid bb cf d10 n10,
         mkFrame pid bb cf d11 n11, mkFrame pid bb cf d12 n12]).2).length
      = 12 := by
  have hallow : is_allowed_class names (pDet pid bb cf).cls = true := by
    show is_allowed_class names pid = true
    unfold is_allowed_class
    rw [hperson]
    decide
  have hbc : buildCounts names [pDet pid bb cf] [] = [("person", 1)] := by
    rw [buildCounts_cons, if_pos hallow]
    show bump [] (names pid) = [("person", 1)]
    rw [hperson]
    rfl
  have had6 : alertDecision [("person", 1)] 0 n6 =
      (some "1 person detected", n6) := by
    rw [alertDecision_cons, if_pos h6]
    rfl
  have had12 : alertDecision [("person", 1)] n6 n12 = (none, n6) :=
    alertDecision_not_elapsed _ _ _ h12
  have hsm6 : smoothNext 0 (instantOf d6) = instantOf d6 := by
    rw [smoothNext, if_pos rfl]
  have hsm12 : smoothNext (instantOf d6) (instantOf d12) =
      (9 / 10) * instantOf d6 + (1 / 10) * instantOf d12 := by
    rw [smoothNext, if_neg (ne_of_gt (instantOf_pos d6))]
  have e6 : stepFrame names ⟨5, none, 0, 0, store0⟩ (mkFrame pid bb cf d6 n6) =
      (⟨6, some [pDet pid bb cf], instantOf d6, n6, s6Store store0 d6 n6⟩,
       ⟨true, some "1 person detected", some [pDet pid bb cf]⟩) := by
    rw [stepFrame_sampling names ⟨5, none, 0, 0, store0⟩
      (mkFrame pid bb cf d6 n6) (show ((5 : Nat) + 1) % 6 = 0 by decide)]
    dsimp only [mkFrame]
    rw [hbc, hsm6, had6]
    rfl
  have e12 : stepFrame names
      ⟨11, some [pDet pid bb cf], instantOf d6, n6, s6Store store0 d6 n6⟩
      (mkFrame pid bb cf d12 n12) =
      (⟨12, some [pDet pid bb cf],
        (9 / 10) * instantOf d6 + (1 / 10) * instantOf d12, n6,
        _update_latest_stats (s6Store store0 d6 n6)
          ((9 / 10) * instantOf d6 + (1 / 10) * instantOf d12)
          (([("person", 1)] : List (String × Nat)).map
            (fun p => (p.1, Val.num (p.2 : ℚ))))
          none n12 n12⟩,
       ⟨true, none, some [pDet pid bb cf]⟩) := by
    rw [stepFrame_sampling names
      ⟨11, some [pDet pid bb cf], instantOf d6, n6, s6Store store0 d6 n6⟩
      (mkFrame pid bb cf d12 n12) (show ((11 : Nat) + 1) % 6 = 0 by decide)]
    dsimp only [mkFrame]
    rw [hbc, hsm12, had12]
  have hrun : (runFrames names (initState store0)
      [mkFrame pid bb cf d1 n1, mkFrame pid bb cf d2 n2,
       mkFrame pid bb cf d3 n3, mkFrame pid bb cf d4 n4,
       mkFrame pid bb cf d5 n5, mkFrame pid bb cf d6 n6,
       mkFrame pid bb cf d7 n7, mkFrame pid bb cf d8 n8,
       mkFrame pid bb cf d9 n9, mkFrame pid bb cf d10 n10,
       mkFrame pid bb cf d11 n11, mkFrame pid bb cf d12 n12]).2 =
      [⟨false, none, none⟩, ⟨false, none, none⟩, ⟨false, none, none⟩,
       ⟨false, none, none⟩, ⟨false, none, none⟩,
       ⟨true, some "1 person detected", some [pDet pid bb cf]⟩,
       ⟨false, none, some [pDet pid bb cf]⟩,
       ⟨false, none, some [pDet pid bb cf]⟩,
       ⟨false, none, some [pDet pid bb cf]⟩,
       ⟨false, none, some [pDet pid bb cf]⟩,
       ⟨false, none, some [pDet pid bb cf]⟩,
       ⟨true, none, some [pDet pid bb cf]⟩] := by
    rw [show initState store0 = (⟨0, none, 0, 0, store0⟩ : GenState) from rfl]
    rw [runFrames_cons_eq _ _ _ _ _ _
      (stepNS_lit names 0 none 0 0 store0 _ (by decide))]
    rw [runFrames_cons_eq _ _ _ _ _ _
      (stepNS_lit names 1 none 0 0 store0 _ (by decide))]
    rw [runFrames_cons_eq _ _ _ _ _ _
      (stepNS_lit names 2 none 0 0 store0 _ (by decide))]
    rw [runFrames_cons_eq _ _ _ _ _ _
      (stepNS_lit names 3 none 0 0 store0 _ (by decide))]
    rw [runFrames_cons_eq _ _ _ _ _ _
      (stepNS_lit names 4 none 0 0 store0 _ (by decide))]
    rw [runFrames_cons_eq _ _ _ _ _ _ e6]
    rw [runFrames_cons_eq _ _ _ _ _ _
      (stepNS_lit names 6 (some [pDet pid bb cf]) (instantOf d6) n6
        (s6Store store0 d6 n6) _ (by decide))]
    rw [runFrames_cons_eq _ _ _ _ _ _
      (stepNS_lit names 7 (some [pDet pid bb cf]) (instantOf d6) n6
        (s6Store store0 d6 n6) _ (by decide))]
    rw [runFrames_cons_eq _ _ _ _ _ _
      (stepNS_lit names 8 (some [pDet pid bb cf]) (instantOf d6) n6
        (s6Store store0 d6 n6) _ (by decide))]
    rw [runFrames_cons_eq _ _ _ _ _ _
      (stepNS_lit names 9 (some [pDet pid bb cf]) (instantOf d6) n6
        (s6Store store0 d6 n6) _ (by decide))]
    rw [runFrames_cons_eq _ _ _ _ _ _
      (stepNS_lit names 10 (some [pDet pid bb cf]) (instantOf d6) n6
        (s6Store store0 d6 n6) _ (by decide))]
    rw [runFrames_cons_eq _ _ _ _ _ _ e12]
    rfl
  rw [hrun]
  exact ⟨rfl, rfl, rfl⟩

/-- Witness for C8 at concrete times: sampling-frame times 10 and 11,
cooldown timer starting at 0, unit inference times. -/
theorem c8_twelve_frames_witness :
    ((runFrames namesP (initState _latest_stats)
        [mkFrame 0 (0, 0, 10, 10) (9 / 10) 1 1,
         mkFrame 0 (0, 0, 10, 10) (9 / 10) 1 1,
         mkFrame 0 (0, 0, 10, 10) (9 / 10) 1 1,
         mkFrame 0 (0, 0, 10, 10) (9 / 10) 1 1,
         mkFrame 0 (0, 0, 10, 10) (9 / 10) 1 1,
         mkFrame 0 (0, 0, 10, 10) (9 / 10) 1 10,
         mkFrame 0 (0, 0, 10, 10) (9 / 10) 1 10,
         mkFrame 0 (0, 0, 10, 10) (9 / 10) 1 10,
         mkFrame 0 (0, 0, 10, 10) (9 / 10) 1 10,
         mkFrame 0 (0, 0, 10, 10) (9 / 10) 1 10,
         mkFrame 0 (0, 0, 10, 10) (9 / 10) 1 10,
         mkFrame 0 (0, 0, 10, 10) (9 / 10) 1 11]).2).map
        (fun o => o.ranDetection) =
      [false, false, false, false, false, true,
       false, false, false, false, false, true] ∧
    ((runFrames namesP (initState _latest_stats)
        [mkFrame 0 (0, 0, 10, 10) (9 / 10) 1 1,
         mkFrame 0 (0, 0, 10, 10) (9 / 10) 1 1,
         mkFrame 0 (0, 0, 10, 10) (9 / 10) 1 1,
         mkFrame 0 (0, 0, 10, 10) (9 / 10) 1 1,
         mkFrame 0 (0, 0, 10, 10) (9 / 10) 1 1,
         mkFrame 0 (0, 0, 10, 10) (9 / 10) 1 10,
         mkFrame 0 (0, 0, 10, 10) (9 / 10) 1 10,
         mkFrame 0 (0, 0, 10, 10) (9 / 10) 1 10,
         mkFrame 0 (0, 0, 10, 10) (9 / 10) 1 10,
         mkFrame 0 (0, 0, 10, 10) (9 / 10) 1 10,
         mkFrame 0 (0, 0, 10, 10) (9 / 10) 1 10,
         mkFrame 0 (0, 0, 10, 10) (9 / 10) 1 11]).2).map
        (fun o => o.alertEmitted) =
      [none, none, none, none, none, some "1 person detected",
       none, none, none, none, none, none] ∧
    ((runFrames namesP (initState _latest_stats)
        [mkFrame 0 (0, 0, 10, 10) (9 / 10) 1 1,
         mkFrame 0 (0, 0, 10, 10) (9 / 10) 1 1,
         mkFrame 0 (0, 0, 10, 10) (9 / 10) 1 1,
         mkFrame 0 (0, 0, 10, 10) (9 / 10) 1 1,
         mkFrame 0 (0, 0, 10, 10) (9 / 10) 1 1,
         mkFrame 0 (0, 0, 10, 10) (9 / 10) 1 10,
         mkFrame 0 (0, 0, 10, 10) (9 / 10) 1 10,
         mkFrame 0 (0, 0, 10, 10) (9 / 10) 1 10,
         mkFrame 0 (0, 0, 10, 10) (9 / 10) 1 10,
         mkFrame 0 (0, 0, 10, 10) (9 / 10) 1 10,
         mkFrame 0 (0, 0, 10, 10) (9 / 10) 1 10,
         mkFrame 0 (0, 0, 10, 10) (9 / 10) 1 11]).2).length = 12 :=
  c8_twelve_frames namesP 0 rfl (0, 0, 10, 10) (9 / 10) _latest_stats
    1 1 1 1 1 1 1 1 1 1 1 1
    1 1 1 1 1 10 10 10 10 10 10 11
    (by norm_num) (by norm_num)

/-! ## C9: end of stream, cancellation and resource release

The source releases the capture via cap.release() after the while loop,
which is reached only when cap.read() fails (the break on line 122).  When
the consumer closes the generator mid-stream, GeneratorExit is raised at
the suspended yield and, with no try/finally around the loop, the code
after the loop never runs: the generator body performs no release on
cancellation. -/

theorem genRun_spec (names : Nat → String) :
    ∀ (frames : List FrameIn) (st : GenState) (budget : Nat),
      (genRun names st frames budget).1.length = min budget frames.length ∧
      (genRun names st frames budget).2 =
        (if frames.length < budget then 1 else 0) := by
  intro frames
  induction frames with
  | nil =>
      intro st budget
      cases budget with
      | zero => simp [genRun]
      | succ b => simp [genRun]
  | cons fi rest ih =>
      intro st budget
      cases budget with
      | zero => simp [genRun]
      | succ b =>
          constructor
          · simp only [genRun, List.length_cons]
            rw [(ih (stepFrame names st fi).1 b).1]
            omega
          · simp only [genRun, List.length_cons]
            rw [(ih (stepFrame names st fi).1 b).2]
            by_cases h : rest.length < b
            · rw [if_pos h, if_pos (by omega)]
            · rw [if_neg h, if_neg (by omega)]

/-- C9 (amended): the chunks produced are one per next() call up to source
exhaustion, and the generator body performs the release exactly once when
the sequence ends by source exhaustion (the consumer requests a chunk
beyond the last frame) and zero times when the stream is cancelled first:
on cancellation the explicit release after the loop is skipped. -/
theorem c9_release_on_exhaustion_only (names : Nat → String)
    (frames : List FrameIn) (st : GenState) (budget : Nat) :
    (genRun names st frames budget).1.length = min budget frames.length ∧
    (genRun names st frames budget).2 =
      (if frames.length < budget then 1 else 0) :=
  genRun_spec names frames st budget

/-- Twelve frames with no detections, for the cancellation run. -/
def framesC : List FrameIn :=
  List.replicate 12 { dets := [], infer_dt := 0, now := 0 }

/-- Counterexample to C9 as stated: cancelling the stream after chunk 5 of
12 produces exactly 5 chunks but zero release calls by the generator body,
not exactly one. -/
theorem c9_cancel_counterexample :
    (genRun namesP (initState _latest_stats) framesC 5).1.length = 5 ∧
    (genRun namesP (initState _latest_stats) framesC 5).2 = 0 ∧
    ¬(genRun namesP (initState _latest_stats) framesC 5).2 = 1 := by
  refine ⟨?_, ?_, ?_⟩
  · rw [(genRun_spec namesP framesC (initState _latest_stats) 5).1]
    decide
  · rw [(genRun_spec namesP framesC (initState _latest_stats) 5).2]
    decide
  · rw [(genRun_spec namesP framesC (initState _latest_stats) 5).2]
    decide

end ObjId
